import Mathlib

/-!
Verification of `gist_storage` (`src/gist_storage/manage.py`): a `GistManager`
wraps one file inside one GitHub gist and offers fetch/push/update operations,
optionally encrypting content at rest with a Fernet symmetric cipher.

The embedding below translates the manager's own logic (construction, key
loading, encrypt/decrypt dispatch, `fetch_content`, `push_content`,
`fetch_json`, `push_json`, `update_json`) directly from the Python source.
The external collaborators (the GitHub client, the `json` codec and the
Fernet cipher from the `cryptography` package) are not part of the
repository; they are modelled from their documented contracts (spec sections
2 and 6): stored text is an inductive `GText` that records whether it is the
JSON serialisation of a mapping or a Fernet token under some key, and the
remote gist file is an `Option GText` (absent or present with content).
`base64.urlsafe_b64decode` is given an executable model mirroring CPython's
non-strict decoder (`binascii.a2b_base64`): invalid characters are ignored,
a pad sequence succeeds only once the pads complete the current quad
(`quad_pos + pads >= 4`), a data character after an incomplete pad resumes
decoding, and a quad left incomplete at the end of input is an error.

Python exceptions become an explicit `PyError` type; a method that can raise
returns `Except PyError _`. The result of the one network write call
(`gist_handle.edit`) is an explicit `EditOutcome` parameter, since its
success, timeout or failure is decided by the outside world.
-/

set_option autoImplicit false

namespace GistStorage

/-- JSON scalar values, covering the payloads the manager stores
(`Dict[str, str]` in the type hints; the tests also use ints and bools). -/
inductive JsonVal where
  | str (s : String)
  | int (n : Int)
  | bool (b : Bool)
  | null
deriving DecidableEq, Repr

/-- A Python `dict` of JSON data: an insertion-ordered association list. -/
abbrev PyDict := List (String × JsonVal)

/-- Python `d[k]`-style lookup: the first entry with the given key. -/
def PyDict.get : PyDict → String → Option JsonVal
  | [], _ => none
  | (k, v) :: rest, key => if k = key then some v else PyDict.get rest key

/-- The keys of a dict, in insertion order. -/
def PyDict.keys (d : PyDict) : List String := d.map Prod.fst

/-- Python `d == u` on dicts: same key set, equal value at every key. -/
def PyDict.beq (d u : PyDict) : Bool :=
  d.all (fun kv => PyDict.get u kv.1 == some kv.2) &&
    u.all (fun kv => PyDict.get d kv.1 == some kv.2)

/-- Python `d.update(u)`: values of keys already in `d` are replaced in
place (keeping `d`'s order), keys of `u` absent from `d` are appended in
`u`'s order. -/
def PyDict.updateDict (d u : PyDict) : PyDict :=
  d.map (fun kv => (kv.1, (PyDict.get u kv.1).getD kv.2)) ++
    u.filter (fun kv => (PyDict.get d kv.1).isNone)

/-- Python exceptions that the manager raises or handles.
`valueError` covers the spec's `ConfigurationError`s, `keyError` its
`NotFoundError`, `jsonDecodeError` its `InvalidFormatError`, `invalidToken`
its `DecryptionError` (Fernet's `InvalidToken`), `readTimeout` the transport
timeout, and `otherException` any other transport or authentication error
(e.g. a `GithubException`), indexed by an arbitrary code. -/
inductive PyError where
  | valueError (msg : String)
  | keyError
  | jsonDecodeError
  | invalidToken
  | readTimeout
  | otherException (code : Nat)
deriving DecidableEq, Repr

/-- Modelled from the spec: the text content stored in the gist file, as the
external collaborators' contracts describe it (spec sections 3 and 6). A
stored text is either the JSON serialisation of a dict (`json.dumps(d,
indent=4)`), a Fernet token wrapping an inner text under a base64 key
string, or other raw text. A Fernet token is opaque base64, never valid
JSON; plain JSON text is never a valid Fernet token. -/
inductive GText where
  | jsonOf (d : PyDict)
  | token (key : String) (inner : GText)
  | raw (s : String)
deriving DecidableEq, Repr

/-- Modelled from the spec: `json.loads` on a stored text — succeeds exactly
on the JSON serialisation of a dict, raising `json.JSONDecodeError`
otherwise (a Fernet token or other raw text is not valid JSON). -/
def json_loads : GText → Except PyError PyDict
  | .jsonOf d => .ok d
  | .token _ _ => .error .jsonDecodeError
  | .raw _ => .error .jsonDecodeError

/-- Modelled from the spec: `Fernet(key).decrypt` — recovers the plaintext
of a token produced under the identical key, and raises `InvalidToken` on a
token under a different key or on text that is not a Fernet token at all. -/
def fernetDecrypt (key : String) : GText → Except PyError GText
  | .token k inner => if k = key then .ok inner else .error .invalidToken
  | .jsonOf _ => .error .invalidToken
  | .raw _ => .error .invalidToken

/-- Modelled from the spec: the character values seen by
`base64.urlsafe_b64decode` — the standard table (`A`–`Z`, `a`–`z`, `0`–`9`,
`+`, `/`), with `-` and `_` translated to `+` and `/` beforehand, so all
four of `+`, `/`, `-`, `_` are accepted. -/
def b64val (c : Char) : Option Nat :=
  if 'A' ≤ c ∧ c ≤ 'Z' then some (c.toNat - 65)
  else if 'a' ≤ c ∧ c ≤ 'z' then some (c.toNat - 97 + 26)
  else if '0' ≤ c ∧ c ≤ '9' then some (c.toNat - 48 + 52)
  else if c = '+' ∨ c = '-' then some 62
  else if c = '/' ∨ c = '_' then some 63
  else none

/-- Modelled from the spec: the decoding loop of non-strict
`binascii.a2b_base64`. `quadPos` is the position inside the current group of
four data characters, `leftover` the pending bits, `pads` the pad characters
seen in the current quad, `acc` the decoded bytes in reverse. Characters
outside the table are ignored. A `=` at `quadPos < 2` is ignored without
counting; at `quadPos ≥ 2` it counts as a pad, and decoding ends
successfully once `quadPos + pads` reaches 4 (so two data characters need
two pads, three need one). A data character resets the pad count and
resumes the quad. At the end of input a quad holding one data character is
the "1 more than a multiple of 4" error, two or three unpadded data
characters are an "Incorrect padding" error. -/
def b64decodeLoop : List Char → Nat → Nat → Nat → List Nat → Except PyError (List Nat)
  | [], quadPos, _, _, acc =>
      if quadPos = 0 then .ok acc.reverse
      else if quadPos = 1 then
        .error (.valueError
          "Invalid base64-encoded string: number of data characters cannot be 1 more than a multiple of 4")
      else .error (.valueError "Incorrect padding")
  | c :: rest, quadPos, leftover, pads, acc =>
      if c = '=' then
        if 2 ≤ quadPos then
          if 4 ≤ quadPos + (pads + 1) then .ok acc.reverse
          else b64decodeLoop rest quadPos leftover (pads + 1) acc
        else b64decodeLoop rest quadPos leftover pads acc
      else
        match b64val c with
        | none => b64decodeLoop rest quadPos leftover pads acc
        | some v =>
          match quadPos with
          | 0 => b64decodeLoop rest 1 v 0 acc
          | 1 => b64decodeLoop rest 2 (v % 16) 0 ((leftover * 4 + v / 16) :: acc)
          | 2 => b64decodeLoop rest 3 (v % 4) 0 ((leftover * 16 + v / 4) :: acc)
          | _ => b64decodeLoop rest 0 0 0 ((leftover * 64 + v) :: acc)

/-- Modelled from the spec: `base64.urlsafe_b64decode` on a key string,
returning the decoded bytes or raising a `ValueError`: a non-ASCII string
is rejected up front (CPython encodes the `str` argument as ASCII before
decoding), and otherwise the non-strict base64 loop runs (`binascii.Error`
is a subclass of `ValueError`). -/
def urlsafe_b64decode (s : String) : Except PyError (List Nat) :=
  if s.data.all (fun c => c.toNat < 128) then b64decodeLoop s.data 0 0 0 []
  else .error (.valueError "string argument should contain only ASCII characters")

/-- The manager's per-instance state, as `__init__` leaves it: the
`disable_encryption` flag, the stored (but, in the source, never again read)
`encryption_key` argument, and `fernet`, which is `some key` exactly when
`load_encryption_key` activated encryption with that base64 key string. The
gist handle and filename are fixed per instance and carried implicitly by
the `Option GText` remote-file state threaded through the operations. -/
structure GistManager where
  disable_encryption : Bool
  encryption_key : Option String
  fernet : Option String
deriving DecidableEq, Repr

/-- Observable network calls made during construction: `Github(token)
.get_gist(gist_hash)` is the only one. -/
inductive InitEvent where
  | getGist
deriving DecidableEq, Repr

/-- `GistManager.load_encryption_key`, translated from the source: reads the
key from the environment variable `GIST_ENCRYPT_SECRET_KEY` only (the
`encryption_key` constructor argument is not consulted). If the variable is
set to a non-empty string and encryption is not disabled, the key is base64-
decoded — a decode failure raises `ValueError('Invalid encryption key
format')`, a decoded length other than 32 raises `ValueError('Encryption key
must be 32 bytes long after base64 decoding.')` — and on success encryption
is activated with that key. Otherwise encryption stays off. Returns the
resulting `fernet` field instead of mutating `self`. -/
def load_encryption_key (env_key : Option String) (disable_encryption : Bool) :
    Except PyError (Option String) :=
  match env_key with
  | some key =>
      if key ≠ "" ∧ ¬disable_encryption then
        match urlsafe_b64decode key with
        | .error _ => .error (.valueError "Invalid encryption key format")
        | .ok decoded_key =>
            if decoded_key.length = 32 then .ok (some key)
            else .error (.valueError
              "Encryption key must be 32 bytes long after base64 decoding.")
      else .ok none
  | none => .ok none

/-- `GistManager.__init__`, translated from the source. Arguments mirror the
Python parameters, with the two environment variables (`GITHUB_GIST_TOKEN`,
`GIST_ENCRYPT_SECRET_KEY`) passed explicitly. Returns the list of network
calls made, in order, together with the constructed manager or the raised
error: the token is resolved (argument, else environment, else
`ValueError`), then the gist handle is fetched over the network, then
`load_encryption_key` runs. -/
def gistManagerInit (github_gist_token env_token : Option String)
    (encryption_key : Option String) (disable_encryption : Bool)
    (env_key : Option String) : List InitEvent × Except PyError GistManager :=
  let token := match github_gist_token with
    | some t => some t
    | none => env_token
  match token with
  | none => ([], .error (.valueError
      "GitHub token is required, provide it as an argument or in .env file"))
  | some _ =>
      match load_encryption_key env_key disable_encryption with
      | .ok f => ([.getGist], .ok ⟨disable_encryption, encryption_key, f⟩)
      | .error e => ([.getGist], .error e)

/-- `GistManager.encrypt`, translated from the source: raises `ValueError`
when no Fernet object was initialised, otherwise produces the cipher token
of the data under the instance's key. -/
def GistManager.encrypt (m : GistManager) (data : GText) : Except PyError GText :=
  match m.fernet with
  | none => .error (.valueError "Encryption key is not provided")
  | some k => .ok (.token k data)

/-- `GistManager.decrypt`, translated from the source: raises `ValueError`
when no Fernet object was initialised, otherwise defers to Fernet
decryption under the instance's key. -/
def GistManager.decrypt (m : GistManager) (data : GText) : Except PyError GText :=
  match m.fernet with
  | none => .error (.valueError "Encryption key is not provided")
  | some k => fernetDecrypt k data

/-- `GistManager.fetch_content`, translated from the source: reads
`gist_handle.files[filename].content` — raising `KeyError` when the file is
absent (the `except KeyError` in the source logs and re-raises) — then
decrypts it when encryption is active. -/
def GistManager.fetch_content (m : GistManager) (remote : Option GText) :
    Except PyError GText :=
  match remote with
  | none => .error .keyError
  | some file_content =>
      match m.fernet with
      | some _ => m.decrypt file_content
      | none => .ok file_content

/-- The text `push_content` actually stores: the content itself, or its
Fernet token when encryption is active (`if self.fernet: content =
self.encrypt(content)`). -/
def encryptIfActive (m : GistManager) (content : GText) : GText :=
  match m.fernet with
  | some k => .token k content
  | none => content

/-- `GistManager.push_content`, translated from the source: encrypts the
content when encryption is active, then calls `gist_handle.edit` with it.
`edit`'s outcome is the `outcome` parameter: on success the remote file now
holds the pushed text and the method returns `True`; a `ReadTimeout` is
caught, logged and turned into `False`; any other exception propagates.
Returns the boolean paired with the resulting remote-file state. -/
def GistManager.push_content (m : GistManager) (remote : Option GText)
    (content : GText) (outcome : Except PyError Unit) :
    Except PyError (Bool × Option GText) :=
  match outcome with
  | .ok () => .ok (true, some (encryptIfActive m content))
  | .error .readTimeout => .ok (false, remote)
  | .error e => .error e

/-- `GistManager.fetch_json`, translated from the source: `fetch_content`,
then `json.loads` (the `except json.JSONDecodeError` logs and re-raises). -/
def GistManager.fetch_json (m : GistManager) (remote : Option GText) :
    Except PyError PyDict :=
  match m.fetch_content remote with
  | .ok file_content => json_loads file_content
  | .error e => .error e

/-- `GistManager.push_json`, translated from the source: serialises the dict
with `json.dumps(data, indent=4)`, calls `push_content` — discarding its
boolean result — and returns `True`. The `except ReadTimeout: return False`
clause is translated faithfully although `push_content` already catches
`ReadTimeout` itself, so that branch is unreachable. -/
def GistManager.push_json (m : GistManager) (remote : Option GText)
    (data : PyDict) (outcome : Except PyError Unit) :
    Except PyError (Bool × Option GText) :=
  match m.push_content remote (.jsonOf data) outcome with
  | .ok (_, remote') => .ok (true, remote')
  | .error .readTimeout => .ok (false, remote)
  | .error e => .error e

/-- `GistManager.update_json`, translated from the source: fetches the
current JSON, returns `True` without writing when it equals `update_data`
(Python `==`), otherwise merges with `existing_data.update(update_data)`
and pushes; `except Exception` converts any error from the fetch or push
phase into `False`. The result is the returned boolean, the resulting
remote-file state, and the number of `gist_handle.edit` calls issued. -/
def GistManager.update_json (m : GistManager) (remote : Option GText)
    (update_data : PyDict) (outcome : Except PyError Unit) :
    Bool × Option GText × Nat :=
  match m.fetch_json remote with
  | .error _ => (false, remote, 0)
  | .ok existing_data =>
      if PyDict.beq existing_data update_data then (true, remote, 0)
      else
        match m.push_json remote (PyDict.updateDict existing_data update_data)
            outcome with
        | .ok (b, remote') => (b, remote', 1)
        | .error _ => (false, remote, 1)

/-- The remote text after a successful `push_json` of dict `d`: its JSON
serialisation, wrapped in a cipher token when encryption is active. -/
def storedForm (m : GistManager) (d : PyDict) : GText :=
  encryptIfActive m (.jsonOf d)

/-! ### Association-list lemmas -/

/-- Keys of a cons cell. -/
theorem PyDict.keys_cons (k : String) (v : JsonVal) (rest : PyDict) :
    PyDict.keys ((k, v) :: rest) = k :: PyDict.keys rest := rfl

/-- Lookup distributes over append, preferring the left list. -/
theorem PyDict.get_append (a b : PyDict) (k : String) :
    PyDict.get (a ++ b) k = (PyDict.get a k).orElse (fun _ => PyDict.get b k) := by
  induction a with
  | nil => simp [PyDict.get, Option.orElse]
  | cons kv rest ih =>
      obtain ⟨k', v⟩ := kv
      by_cases h : k' = k
      · simp [PyDict.get, h, Option.orElse]
      · simp [PyDict.get, h, ih]

/-- Lookup in the value-replacement pass of `updateDict`. -/
theorem PyDict.get_mapUpdate (D U : PyDict) (k : String) :
    PyDict.get (D.map (fun kv => (kv.1, (PyDict.get U kv.1).getD kv.2))) k
      = (PyDict.get D k).map (fun v => (PyDict.get U k).getD v) := by
  induction D with
  | nil => simp [PyDict.get]
  | cons kv rest ih =>
      obtain ⟨k', v⟩ := kv
      by_cases h : k' = k
      · subst h
        simp [PyDict.get]
      · simp [PyDict.get, h, ih]

/-- Filtering with a predicate that keeps every entry of a given key does
not change the lookup of that key. -/
theorem PyDict.get_filter_of_key_kept (U : PyDict) (p : String × JsonVal → Bool)
    (k : String) (hp : ∀ v, p (k, v) = true) :
    PyDict.get (U.filter p) k = PyDict.get U k := by
  induction U with
  | nil => simp [PyDict.get]
  | cons kv rest ih =>
      obtain ⟨k', v⟩ := kv
      by_cases h : k' = k
      · subst h
        rw [List.filter_cons, hp v]
        simp [PyDict.get]
      · rw [List.filter_cons]
        cases hpv : p (k', v) <;> simp [PyDict.get, h, ih]

/-- The characterising property of the Python `dict.update` merge: lookup in
the merged dict tries the update dict first, then the original. -/
theorem PyDict.get_updateDict (D U : PyDict) (k : String) :
    PyDict.get (PyDict.updateDict D U) k
      = (PyDict.get U k).orElse (fun _ => PyDict.get D k) := by
  unfold PyDict.updateDict
  rw [PyDict.get_append, PyDict.get_mapUpdate]
  cases hD : PyDict.get D k with
  | none =>
      rw [PyDict.get_filter_of_key_kept]
      · cases hU : PyDict.get U k <;> simp [Option.orElse]
      · intro v
        simp [hD]
  | some v =>
      cases hU : PyDict.get U k <;> simp [Option.orElse]

/-- A successful lookup locates an actual entry of the dict. -/
theorem PyDict.mem_of_get_eq_some {U : PyDict} {k : String} {v : JsonVal}
    (h : PyDict.get U k = some v) : (k, v) ∈ U := by
  induction U with
  | nil => simp [PyDict.get] at h
  | cons kv rest ih =>
      obtain ⟨k', v'⟩ := kv
      by_cases hk : k' = k
      · subst hk
        simp [PyDict.get] at h
        subst h
        exact List.mem_cons_self _ _
      · simp [PyDict.get, hk] at h
        exact List.mem_cons_of_mem _ (ih h)

/-- In a dict with no duplicate keys every entry is found by lookup. -/
theorem PyDict.get_of_mem_nodup {D : PyDict} {k : String} {v : JsonVal}
    (hnd : (PyDict.keys D).Nodup) (hm : (k, v) ∈ D) : PyDict.get D k = some v := by
  induction D with
  | nil => cases hm
  | cons kv rest ih =>
      obtain ⟨k', v'⟩ := kv
      rw [PyDict.keys_cons, List.nodup_cons] at hnd
      rcases List.mem_cons.mp hm with heq | hmem
      · cases heq
        simp [PyDict.get]
      · have hk : k' ≠ k := by
          intro hkk
          subst hkk
          exact hnd.1 (List.mem_map_of_mem Prod.fst hmem)
        simp [PyDict.get, hk]
        exact ih hnd.2 hmem

/-- Python dict equality is reflexive on dicts with no duplicate keys. -/
theorem PyDict.beq_self {D : PyDict} (hnd : (PyDict.keys D).Nodup) :
    PyDict.beq D D = true := by
  unfold PyDict.beq
  rw [Bool.and_eq_true]
  constructor <;>
  · rw [List.all_eq_true]
    intro kv hkv
    have h := PyDict.get_of_mem_nodup hnd (show (kv.1, kv.2) ∈ D by simpa using hkv)
    simp [h]

/-- Mapping a function that fixes every entry of a dict is the identity. -/
theorem PyDict.map_eq_self_of_mem {D : PyDict} {f : String × JsonVal → String × JsonVal}
    (h : ∀ kv ∈ D, f kv = kv) : D.map f = D := by
  induction D with
  | nil => rfl
  | cons kv rest ih =>
      rw [List.map_cons, h kv (List.mem_cons_self kv rest),
        ih (fun x hx => h x (List.mem_cons_of_mem _ hx))]

/-! ### Behaviour of the manager on well-formed stored content -/

/-- Fetching the stored form of a dict decrypts (when active) and parses it
back to exactly that dict. -/
theorem fetch_json_storedForm (m : GistManager) (M : PyDict) :
    m.fetch_json (some (storedForm m M)) = .ok M := by
  cases hf : m.fernet with
  | none =>
      simp [GistManager.fetch_json, GistManager.fetch_content, storedForm,
        encryptIfActive, hf, json_loads]
  | some k =>
      simp [GistManager.fetch_json, GistManager.fetch_content, storedForm,
        encryptIfActive, hf, GistManager.decrypt, fernetDecrypt, json_loads]

/-! ### Claims -/

/-- C1: for every JSON-serializable mapping `M`, `push_json M` followed by
`fetch_json` on the same Store returns a mapping equal to `M`, both when
encryption is active (the stored token decrypts back) and when it is
disabled (the plaintext serialisation parses back): a successful push leaves
the remote file holding `storedForm m M`, and fetching that yields `M`. -/
theorem c1_push_json_fetch_json_roundtrip (m : GistManager)
    (remote : Option GText) (M : PyDict) :
    m.push_json remote M (.ok ()) = .ok (true, some (storedForm m M)) ∧
      m.fetch_json (some (storedForm m M)) = .ok M := by
  constructor
  · simp [GistManager.push_json, GistManager.push_content, storedForm]
  · exact fetch_json_storedForm m M

/-- C3: the claim says a push whose transport call raises a timeout makes
`push_json` return false; in the source `push_json` discards
`push_content`'s boolean and returns `True`, so on a `ReadTimeout` —
which `push_content` catches, returning `False` — `push_json` reports
success. This exhibits the code at the failing input: transport timeout
during `push_json` of `{a: 1}` over stored `{}`. -/
theorem c3_push_json_timeout_returns_true :
    (⟨true, none, none⟩ : GistManager).push_content (some (GText.jsonOf []))
        (GText.jsonOf [("a", JsonVal.int 1)]) (.error .readTimeout)
      = .ok (false, some (GText.jsonOf [])) ∧
      (⟨true, none, none⟩ : GistManager).push_json (some (GText.jsonOf []))
        [("a", JsonVal.int 1)] (.error .readTimeout)
      = .ok (true, some (GText.jsonOf [])) :=
  ⟨rfl, rfl⟩

/-- C4: the claim says an explicit encryption-key argument takes precedence
over the environment; in the source `load_encryption_key` only reads the
environment variable and the `encryption_key` argument is stored but never
consulted. At the failing input — a valid 32-byte base64url key passed as
the argument, no environment key, encryption not disabled — construction
succeeds with encryption off (`fernet = none`); and with both argument and
environment keys present, the environment key is the one activated. -/
theorem c4_explicit_key_argument_ignored :
    (gistManagerInit (some "tok") none
        (some "AAAAAAAAAAAAAAAAAAAAAAAAAAAAAAAAAAAAAAAAAAA=") false none).2
      = .ok ⟨false, some "AAAAAAAAAAAAAAAAAAAAAAAAAAAAAAAAAAAAAAAAAAA=", none⟩ ∧
      (gistManagerInit (some "tok") none
          (some "AAAAAAAAAAAAAAAAAAAAAAAAAAAAAAAAAAAAAAAAAAA=") false
          (some "BBBBBBBBBBBBBBBBBBBBBBBBBBBBBBBBBBBBBBBBBBB=")).2
      = .ok ⟨false, some "AAAAAAAAAAAAAAAAAAAAAAAAAAAAAAAAAAAAAAAAAAA=",
          some "BBBBBBBBBBBBBBBBBBBBBBBBBBBBBBBBBBBBBBBBBBB="⟩ :=
  ⟨rfl, rfl⟩

/-- C5 counterexample: the key `"!"` base64url-decodes to 0 bytes (not 32),
yet constructing a Store with it as the explicit `encryption_key` argument
(encryption not disabled, no environment key) raises no error at all — the
argument is never validated, so the claim fails as stated. -/
theorem c5_counterexample_malformed_arg_key_accepted :
    (urlsafe_b64decode "!").toOption.map List.length ≠ some 32 ∧
      (gistManagerInit (some "tok") none (some "!") false none).2
      = .ok ⟨false, some "!", none⟩ :=
  ⟨by decide, rfl⟩

/-- C5 (amended): for every non-empty key resolved from the environment
variable whose base64url decoding fails or does not yield exactly 32 bytes,
construction with encryption not disabled raises a `ValueError`
(`ConfigurationError`) — but only after the gist handle has been fetched
over the network, so construction does perform network I/O before
failing. -/
theorem c5_env_malformed_key_raises_after_network (tok key : String)
    (hne : key ≠ "")
    (hmal : (urlsafe_b64decode key).toOption.map List.length ≠ some 32) :
    ∃ msg, gistManagerInit (some tok) none none false (some key)
      = ([.getGist], .error (.valueError msg)) := by
  unfold gistManagerInit load_encryption_key
  cases hdec : urlsafe_b64decode key with
  | error e =>
      refine ⟨"Invalid encryption key format", ?_⟩
      simp [hne, hdec]
  | ok bs =>
      have hlen : bs.length ≠ 32 := by
        intro h
        rw [hdec] at hmal
        exact hmal (by simp [Except.toOption, h])
      refine ⟨"Encryption key must be 32 bytes long after base64 decoding.", ?_⟩
      simp [hne, hdec, hlen]

/-- C5 witness: the key `"x"` is non-empty and malformed (its decoding
fails), and construction from the environment with it raises a
`ValueError` after the gist was fetched. -/
theorem c5_env_malformed_key_witness :
    ("x" ≠ "" ∧ (urlsafe_b64decode "x").toOption.map List.length ≠ some 32) ∧
      ∃ msg, gistManagerInit (some "tok") none none false (some "x")
        = ([.getGist], .error (.valueError msg)) :=
  ⟨⟨by decide, by decide⟩,
    c5_env_malformed_key_raises_after_network "tok" "x" (by decide) (by decide)⟩

/-- C6: `push_content` returns false exactly when the transport call raises
`ReadTimeout` (caught, not re-raised); a successful edit returns true with
the (possibly encrypted) content stored; and every other error raised by
the edit propagates unchanged. -/
theorem c6_push_content_contract (m : GistManager) (remote : Option GText)
    (content : GText) :
    m.push_content remote content (.ok ())
        = .ok (true, some (encryptIfActive m content)) ∧
      m.push_content remote content (.error .readTimeout) = .ok (false, remote) ∧
      ∀ e : PyError, e ≠ .readTimeout →
        m.push_content remote content (.error e) = .error e := by
  refine ⟨rfl, rfl, fun e he => ?_⟩
  cases e <;> first | rfl | exact absurd rfl he

/-- C6 witness: a non-timeout transport error (`otherException 0`)
propagates out of `push_content` unchanged. -/
theorem c6_push_content_contract_witness :
    (⟨true, none, none⟩ : GistManager).push_content none (GText.raw "hi")
        (.error (.otherException 0)) = .error (.otherException 0) :=
  (c6_push_content_contract ⟨true, none, none⟩ none (GText.raw "hi")).2.2
    (.otherException 0) (by decide)

/-- C2: with a mapping `D` stored and an update mapping `U` not equal to it,
`update_json U` pushes the merge of `U` into `D` (one write issued, success
reported), a subsequent fetch returns that merged mapping, and the merge
gives `U`'s keys precedence while preserving every other key of `D`. -/
theorem c2_update_json_merges (m : GistManager) (D U : PyDict)
    (hne : PyDict.beq D U = false) :
    m.update_json (some (storedForm m D)) U (.ok ())
        = (true, some (storedForm m (PyDict.updateDict D U)), 1) ∧
      m.fetch_json (some (storedForm m (PyDict.updateDict D U)))
        = .ok (PyDict.updateDict D U) ∧
      ∀ k, PyDict.get (PyDict.updateDict D U) k
        = (PyDict.get U k).orElse (fun _ => PyDict.get D k) := by
  refine ⟨?_, fetch_json_storedForm m _, fun k => PyDict.get_updateDict D U k⟩
  unfold GistManager.update_json
  rw [fetch_json_storedForm]
  simp [hne, GistManager.push_json, GistManager.push_content, storedForm]

/-- C2 witness: the spec's concrete example — stored `{a:1, b:2}`, update
`{b:3, c:4}` — pushes the merge and a subsequent fetch returns
`{a:1, b:3, c:4}`. -/
theorem c2_update_json_merges_witness :
    PyDict.beq [("a", JsonVal.int 1), ("b", JsonVal.int 2)]
        [("b", JsonVal.int 3), ("c", JsonVal.int 4)] = false ∧
      (⟨true, none, none⟩ : GistManager).update_json
          (some (storedForm ⟨true, none, none⟩
            [("a", JsonVal.int 1), ("b", JsonVal.int 2)]))
          [("b", JsonVal.int 3), ("c", JsonVal.int 4)] (.ok ())
        = (true, some (storedForm ⟨true, none, none⟩
            [("a", JsonVal.int 1), ("b", JsonVal.int 3), ("c", JsonVal.int 4)]), 1) ∧
      (⟨true, none, none⟩ : GistManager).fetch_json
          (some (storedForm ⟨true, none, none⟩
            [("a", JsonVal.int 1), ("b", JsonVal.int 3), ("c", JsonVal.int 4)]))
        = .ok [("a", JsonVal.int 1), ("b", JsonVal.int 3), ("c", JsonVal.int 4)] := by
  have h := c2_update_json_merges ⟨true, none, none⟩
    [("a", JsonVal.int 1), ("b", JsonVal.int 2)]
    [("b", JsonVal.int 3), ("c", JsonVal.int 4)] (by decide)
  exact ⟨by decide, h.1, h.2.1⟩

/-- C7: `update_json` converts every error of its fetch phase, and every
error of its push phase, into a `false` return with the remote file left as
it was — the only observable outcomes are the booleans, never a raised
error. -/
theorem c7_update_json_swallows_errors (m : GistManager) (remote : Option GText)
    (U : PyDict) (outcome : Except PyError Unit) (e : PyError)
    (h : m.fetch_json remote = .error e ∨
      ∃ d, m.fetch_json remote = .ok d ∧ PyDict.beq d U = false ∧
        m.push_json remote (PyDict.updateDict d U) outcome = .error e) :
    (m.update_json remote U outcome).1 = false ∧
      (m.update_json remote U outcome).2.1 = remote := by
  unfold GistManager.update_json
  rcases h with hf | ⟨d, hd, hne, hpush⟩
  · rw [hf]
    exact ⟨rfl, rfl⟩
  · rw [hd]
    simp [hne, hpush]

/-- C7 witness: on a Store whose file is absent (fetch raises `KeyError`),
`update_json` returns false and leaves the remote state untouched. -/
theorem c7_update_json_swallows_errors_witness :
    ((⟨true, none, none⟩ : GistManager).update_json none [] (.ok ())).1 = false ∧
      ((⟨true, none, none⟩ : GistManager).update_json none [] (.ok ())).2.1 = none :=
  c7_update_json_swallows_errors ⟨true, none, none⟩ none [] (.ok ()) .keyError
    (Or.inl rfl)

/-- C8: calling `update_json` with a mapping equal to the stored one (any
duplicate-free dict) reports success, issues no `edit` call, and leaves the
remote content unchanged. -/
theorem c8_update_json_noop (m : GistManager) (D : PyDict)
    (outcome : Except PyError Unit) (hnd : (PyDict.keys D).Nodup) :
    m.update_json (some (storedForm m D)) D outcome
      = (true, some (storedForm m D), 0) := by
  unfold GistManager.update_json
  rw [fetch_json_storedForm]
  simp [PyDict.beq_self hnd]

/-- C8 witness: a no-op update of the stored `{a:1}` succeeds without
writing. -/
theorem c8_update_json_noop_witness :
    (⟨true, none, none⟩ : GistManager).update_json
        (some (storedForm ⟨true, none, none⟩ [("a", JsonVal.int 1)]))
        [("a", JsonVal.int 1)] (.ok ())
      = (true, some (storedForm ⟨true, none, none⟩ [("a", JsonVal.int 1)]), 0) :=
  c8_update_json_noop ⟨true, none, none⟩ [("a", JsonVal.int 1)] (.ok ()) (by decide)

/-- C9: encryption isolation — content pushed by a Store with encryption
active under key `k1` raises `InvalidToken` (the `DecryptionError`) or
`JSONDecodeError` (the `InvalidFormatError`) when fetched by a Store whose
key differs or whose encryption is off; the fetch fails rather than
returning corrupted data. -/
theorem c9_encryption_isolation (m1 m2 : GistManager) (k1 : String)
    (M : PyDict) (remote remote' : Option GText)
    (hk1 : m1.fernet = some k1)
    (hpush : m1.push_json remote M (.ok ()) = .ok (true, remote'))
    (hk2 : m2.fernet ≠ some k1) :
    ∃ e, m2.fetch_json remote' = .error e ∧
      (e = PyError.invalidToken ∨ e = PyError.jsonDecodeError) := by
  have hr : remote' = some (GText.token k1 (GText.jsonOf M)) := by
    rw [GistManager.push_json, GistManager.push_content] at hpush
    simp [encryptIfActive, hk1] at hpush
    exact hpush.symm
  cases hf2 : m2.fernet with
  | none =>
      refine ⟨.jsonDecodeError, ?_, Or.inr rfl⟩
      simp [GistManager.fetch_json, GistManager.fetch_content, hr, hf2, json_loads]
  | some k2 =>
      have hkk : k1 ≠ k2 := by
        intro h
        exact hk2 (by rw [hf2, h])
      refine ⟨.invalidToken, ?_, Or.inl rfl⟩
      simp [GistManager.fetch_json, GistManager.fetch_content, GistManager.decrypt,
        hr, hf2, fernetDecrypt, hkk]

/-- C9 witness: the empty mapping pushed under key `"K1"` fails to fetch
both under key `"K2"` and with encryption disabled. -/
theorem c9_encryption_isolation_witness :
    (∃ e, (⟨false, none, some "K2"⟩ : GistManager).fetch_json
        (some (GText.token "K1" (GText.jsonOf []))) = .error e ∧
      (e = PyError.invalidToken ∨ e = PyError.jsonDecodeError)) ∧
      ∃ e, (⟨true, none, none⟩ : GistManager).fetch_json
          (some (GText.token "K1" (GText.jsonOf []))) = .error e ∧
        (e = PyError.invalidToken ∨ e = PyError.jsonDecodeError) :=
  ⟨c9_encryption_isolation ⟨false, none, some "K1"⟩ ⟨false, none, some "K2"⟩ "K1"
      [] none (some (GText.token "K1" (GText.jsonOf []))) rfl rfl (by decide),
    c9_encryption_isolation ⟨false, none, some "K1"⟩ ⟨true, none, none⟩ "K1"
      [] none (some (GText.token "K1" (GText.jsonOf []))) rfl rfl (by decide)⟩

/-- C10: the no-op short-circuit fires only on exact whole-mapping equality:
for a proper sub-mapping `U` of the stored duplicate-free `D` (every entry
of `U` is an entry of `D`, but `U` has fewer keys), `update_json U` does not
short-circuit — the merge equals `D`, a write is issued, and the call
returns whatever that push returns. -/
theorem c10_update_json_proper_submapping (m : GistManager) (D U : PyDict)
    (outcome : Except PyError Unit)
    (hndD : (PyDict.keys D).Nodup)
    (hsub : ∀ kv ∈ U, PyDict.get D kv.1 = some kv.2)
    (hlt : U.length < D.length) :
    PyDict.updateDict D U = D ∧
      m.update_json (some (storedForm m D)) U outcome
        = (match m.push_json (some (storedForm m D)) D outcome with
            | .ok (b, remote') => (b, remote', 1)
            | .error _ => (false, some (storedForm m D), 1)) := by
  have hmerge : PyDict.updateDict D U = D := by
    unfold PyDict.updateDict
    have hmap : D.map (fun kv => (kv.1, (PyDict.get U kv.1).getD kv.2)) = D := by
      apply PyDict.map_eq_self_of_mem
      intro kv hkv
      cases hU : PyDict.get U kv.1 with
      | none => simp
      | some u =>
          have h1 := hsub _ (PyDict.mem_of_get_eq_some hU)
          have h2 := PyDict.get_of_mem_nodup hndD
            (show (kv.1, kv.2) ∈ D by simpa using hkv)
          rw [h1] at h2
          have hu : u = kv.2 := Option.some.inj h2
          simp [hU, hu]
    have hfil : U.filter (fun kv => (PyDict.get D kv.1).isNone) = [] := by
      rw [List.filter_eq_nil_iff]
      intro kv hkv
      simp [hsub kv hkv]
    rw [hmap, hfil, List.append_nil]
  have hne : PyDict.beq D U = false := by
    cases hbeq : PyDict.beq D U with
    | false => rfl
    | true =>
        exfalso
        have hall := ((Bool.and_eq_true _ _).mp hbeq).1
        rw [List.all_eq_true] at hall
        have hsubkeys : PyDict.keys D ⊆ PyDict.keys U := by
          intro k hk
          obtain ⟨⟨k', v⟩, hmem, hfst⟩ := List.mem_map.mp hk
          have hget := hall _ hmem
          simp only [beq_iff_eq] at hget
          have : (k', v) ∈ U := PyDict.mem_of_get_eq_some hget
          rw [← hfst]
          exact List.mem_map_of_mem Prod.fst this
        have hlen := (List.subperm_of_subset hndD hsubkeys).length_le
        simp [PyDict.keys, List.length_map] at hlen
        omega
  refine ⟨hmerge, ?_⟩
  unfold GistManager.update_json
  rw [fetch_json_storedForm]
  simp only [hne, hmerge, Bool.false_eq_true, if_false]

/-- C10 witness: stored `{a:1, b:2}` and update `{a:1}` (a proper
sub-mapping): the merge equals the stored mapping, the short-circuit is not
taken — one write is issued and, the push succeeding, the call returns
true. -/
theorem c10_update_json_proper_submapping_witness :
    PyDict.updateDict [("a", JsonVal.int 1), ("b", JsonVal.int 2)]
        [("a", JsonVal.int 1)] = [("a", JsonVal.int 1), ("b", JsonVal.int 2)] ∧
      (⟨true, none, none⟩ : GistManager).update_json
          (some (storedForm ⟨true, none, none⟩
            [("a", JsonVal.int 1), ("b", JsonVal.int 2)]))
          [("a", JsonVal.int 1)] (.ok ())
        = (match (⟨true, none, none⟩ : GistManager).push_json
              (some (storedForm ⟨true, none, none⟩
                [("a", JsonVal.int 1), ("b", JsonVal.int 2)]))
              [("a", JsonVal.int 1), ("b", JsonVal.int 2)] (.ok ()) with
            | .ok (b, remote') => (b, remote', 1)
            | .error _ => (false, some (storedForm ⟨true, none, none⟩
                [("a", JsonVal.int 1), ("b", JsonVal.int 2)]), 1)) :=
  c10_update_json_proper_submapping ⟨true, none, none⟩
    [("a", JsonVal.int 1), ("b", JsonVal.int 2)] [("a", JsonVal.int 1)] (.ok ())
    (by decide) (by decide) (by decide)

end GistStorage
